import Mathlib

/-!
# Verification of the AirQuality dataset preparation core

Shallow embedding of `lib/datasets/air_quality.py`: the mask-construction
pipeline (`load`), the derived `training_mask` property, the month-aware
`splitter`, and the `get_similarity` post-processing, together with proofs
of the specified properties.

Conventions of the embedding:
* the observation frame is a list of rows, one per timestamp; a cell is
  `Option ℚ`, with `none` standing for NaN;
* binary masks are `List (List ℕ)` with entries 0/1, indexed with `getD`;
* the splitter works on the per-sample target-window month assignment
  `months_of : List ℕ` (sample `i` has month `months_of[i]`); the external
  collaborators `disjoint_months` and `overlapping_indices` are modelled
  from the spec;
* Python `int()` truncation and `//` floor division on floats are modelled
  on `ℚ` via `pyInt` and `pyFloorDiv`.
-/

namespace AirQuality

/-- Index-aware map, used to embed numpy column-indexed assignments. -/
def mapWithIdx {α β : Type*} (f : ℕ → α → β) : ℕ → List α → List β
  | _, [] => []
  | c, x :: xs => f c x :: mapWithIdx f (c + 1) xs

/-- `mask = (~np.isnan(df.values)).astype('uint8')`: 1 iff the cell is observed. -/
def obsMask (df : List (List (Option ℚ))) : List (List ℕ) :=
  df.map (fun row => row.map (fun v => if v.isSome then 1 else 0))

/-- The superresolution override of `load` (lines 55-65): start from
`np.zeros(eval_mask.shape)`, assign `eval_mask[:, 0::5] = 1`, record
`where_0`/`where_1` and swap the zeros and ones. -/
def evalMaskSR (df : List (List (Option ℚ))) : List (List ℕ) :=
  let m0 := df.map (fun row => row.map (fun _ => (0 : ℕ)))
  let m1 := m0.map (fun row => mapWithIdx (fun c x => if c % 5 = 0 then 1 else x) 0 row)
  m1.map (fun row => row.map (fun x => if x = 0 then 1 else if x = 1 then 0 else x))

/-- `eval_mask[:, masked_sensors] = np.where(mask[:, masked_sensors], 1, 0)`
(line 70): on the masked-sensor columns the evaluation mask is overwritten
with 1 where the observation mask is nonzero and 0 elsewhere. -/
def applyMaskedSensors (em mask : List (List ℕ)) (ms : List ℕ) : List (List ℕ) :=
  List.zipWith
    (fun erow mrow =>
      mapWithIdx
        (fun c x => if c ∈ ms then (if mrow.getD c 0 ≠ 0 then 1 else 0) else x) 0 erow)
    em mask

/-- The evaluation mask produced by `load`: the superresolution pattern,
then the optional `masked_sensors` override. -/
def loadEvalMask (df : List (List (Option ℚ))) (masked_sensors : Option (List ℕ)) :
    List (List ℕ) :=
  match masked_sensors with
  | none => evalMaskSR df
  | some ms => applyMaskedSensors (evalMaskSR df) (obsMask df) ms

/-- The `training_mask` property (line 130):
`self._mask if self.eval_mask is None else (self._mask & (1 - self.eval_mask))`. -/
def training_mask (mask : List (List ℕ)) (eval_mask : Option (List (List ℕ))) :
    List (List ℕ) :=
  match eval_mask with
  | none => mask
  | some em => List.zipWith (List.zipWith (fun a b => Nat.land a (1 - b))) mask em

/-- `self.test_months = [3, 6, 9, 12]`. -/
def test_months : List ℕ := [3, 6, 9, 12]

/-- Modelled from the spec: `disjoint_months(dataset, months, synch_mode)` is an
external collaborator that partitions the sample indices `0, …, N-1` by
calendar-month membership of each sample's target window; we represent the
dataset by the month assignment `months_of` and return the
(not-in-months, in-months) index lists, each in increasing order. -/
def disjoint_months (months_of : List ℕ) (months : List ℕ) : List ℕ × List ℕ :=
  ((List.range months_of.length).filter (fun i => !(months.contains (months_of.getD i 0))),
   (List.range months_of.length).filter (fun i => months.contains (months_of.getD i 0)))

/-- `np.diff`: successive differences. -/
def np_diff (l : List ℕ) : List ℤ :=
  List.zipWith (fun (a b : ℕ) => (b : ℤ) - (a : ℤ)) l l.tail

/-- `np.min` over a list (the source only applies it to nonempty arrays;
numpy raises on an empty array, which the caller guards against). -/
def np_min (l : List ℤ) : ℤ :=
  match l with
  | [] => 0
  | h :: t => t.foldl min h

/-- Python `int()`: truncation toward zero. -/
def pyInt (q : ℚ) : ℤ := if q < 0 then ⌈q⌉ else ⌊q⌋

/-- Python `//`: floor division. -/
def pyFloorDiv (q : ℚ) (n : ℕ) : ℤ := ⌊q / (n : ℚ)⌋

/-- Line 90: `(int(val_len * len(nontest_idxs)) if val_len < 1 else val_len)
// len(self.test_months)`. -/
def val_length (val_len : ℚ) (num_nontest : ℕ) : ℤ :=
  pyFloorDiv (if val_len < 1 then ((pyInt (val_len * (num_nontest : ℚ)) : ℤ) : ℚ) else val_len)
    test_months.length

/-- Lines 92-95: `delta_idxs = np.diff(test_idxs)`;
`end_month_idxs = test_idxs[1:][np.flatnonzero(delta_idxs > delta_idxs.min())]`;
prepend `test_idxs[0]` when fewer boundaries than test months were found. -/
def end_month_idxs (test_idxs : List ℕ) : List ℕ :=
  let delta := np_diff test_idxs
  let emi := ((List.range delta.length).filter (fun i => np_min delta < delta.getD i 0)).map
    (fun i => test_idxs.tail.getD i 0)
  if emi.length < test_months.length then test_idxs.headD 0 :: emi else emi

/-- Lines 97-98: `month_val_idxs = [np.arange(v_idx - val_len, v_idx) - window
for v_idx in end_month_idxs]`; `val_idxs = np.concatenate(month_val_idxs) % len(dataset)`. -/
def month_val_windows (emi : List ℕ) (L : ℤ) (window : ℕ) (N : ℕ) : List ℕ :=
  ((emi.map (fun v => (List.range L.toNat).map
      (fun k => (v : ℤ) - L + (k : ℤ) - (window : ℤ)))).flatten).map
    (fun x => (x % (N : ℤ)).toNat)

/-- Modelled from the spec: `overlapping_indices(set_a, set_b, synch_mode,
as_mask)` is an external collaborator detecting window-level overlap between
two index sets; its minimal faithful per-index instance marks an index of the
first set exactly when it also occurs in the second set (a sample's window
always intersects itself). -/
def overlapping_index (i : ℕ) (b : List ℕ) : Bool := decide (i ∈ b)

/-- The `splitter` method (lines 82-102), parametric in the per-index overlap
test `ovl` supplied by the temporal-indexing collaborator. Returns `none`
exactly when numpy would raise (fewer than two test indices makes
`delta_idxs.min()` a reduction over an empty array). -/
def splitter (months_of : List ℕ) (val_len : ℚ) (in_sample : Bool) (window : ℕ)
    (ovl : ℕ → List ℕ → Bool) : Option (List ℕ × List ℕ × List ℕ) :=
  let nontest_idxs := (disjoint_months months_of test_months).1
  let test_idxs := (disjoint_months months_of test_months).2
  if in_sample then
    let val_months := test_months.map (fun m => (m - 1) % 12)
    some (List.range months_of.length, (disjoint_months months_of val_months).2, test_idxs)
  else
    if test_idxs.length < 2 then none
    else
      let L := val_length val_len nontest_idxs.length
      let val_idxs := month_val_windows (end_month_idxs test_idxs) L window months_of.length
      some (nontest_idxs.filter (fun i => !(ovl i val_idxs)), val_idxs, test_idxs)

/-- The boundary rule as the claim states it: mark exactly the positions of the
largest gaps (successive differences equal to the maximum), with the same
prepending rule. -/
def boundaries_largest (test_idxs : List ℕ) : List ℕ :=
  let gaps := np_diff test_idxs
  let gmax : ℤ := match gaps with | [] => 0 | h :: t => t.foldl max h
  let marked := ((List.range gaps.length).filter (fun i => gaps.getD i 0 = gmax)).map
    (fun i => test_idxs.tail.getD i 0)
  if marked.length < 4 then test_idxs.headD 0 :: marked else marked

/-- The boundary rule as amended: mark exactly the successor of each position whose
successive difference strictly exceeds the minimum successive difference, and
prepend the first test index when fewer boundaries than test months are found. -/
def boundaries_gt_min (test_idxs : List ℕ) : List ℕ :=
  let gaps := np_diff test_idxs
  let marked := (List.range (test_idxs.length - 1)).filterMap
    (fun i => if np_min gaps < (test_idxs.getD (i + 1) 0 : ℤ) - (test_idxs.getD i 0 : ℤ) then
        some (test_idxs.getD (i + 1) 0)
      else none)
  if marked.length < 4 then test_idxs.headD 0 :: marked else marked

/-- The validation windows following the spec's words: the fractional
`val_len` times the non-test count, floored, integer-divided by the number of
test months, gives the per-block length `L`; each boundary `b` contributes the
`L` indices immediately preceding `b`, each shifted left by `window` and
wrapped modulo `N`. -/
def val_windows_spec (months_of : List ℕ) (val_len : ℚ) (window : ℕ) : List ℕ :=
  let nontest := (disjoint_months months_of test_months).1
  let test := (disjoint_months months_of test_months).2
  let L : ℕ := (⌊val_len * (nontest.length : ℚ)⌋).toNat / 4
  let N := months_of.length
  ((end_month_idxs test).map (fun b =>
    (List.range L).map
      (fun k => ((((b : ℤ) - (L : ℤ) + (k : ℤ) - (window : ℤ)) % (N : ℤ))).toNat))).flatten

/-- The `get_similarity` post-processing (lines 104-115), parametric in the
kernel output `adj` (the external `thresholded_gaussian_kernel` applied to the
distance matrix with bandwidth `np.std(dist[:36,:36])` and threshold `thr`):
zero the diagonal unless `include_self`, then take the element-wise maximum
with the transpose when `force_symmetric`. -/
def get_similarity (adj : ℕ → ℕ → ℚ) (include_self force_symmetric : Bool) :
    ℕ → ℕ → ℚ :=
  let a1 := if include_self then adj else fun i j => if i = j then 0 else adj i j
  if force_symmetric then fun i j => max (a1 i j) (a1 j i) else a1

/-! ## List indexing helpers -/

theorem getD_map_of_lt {α β : Type*} (f : α → β) (l : List α) (n : ℕ) (d : α) (d' : β)
    (h : n < l.length) : (l.map f).getD n d' = f (l.getD n d) := by
  rw [List.getD_eq_getElem?_getD, List.getElem?_map, List.getElem?_eq_getElem h]
  simp [List.getD_eq_getElem?_getD, List.getElem?_eq_getElem h]

theorem getD_zipWith_of_lt {α β γ : Type*} (f : α → β → γ) (l₁ : List α) (l₂ : List β)
    (n : ℕ) (d₁ : α) (d₂ : β) (d₃ : γ) (h₁ : n < l₁.length) (h₂ : n < l₂.length) :
    (List.zipWith f l₁ l₂).getD n d₃ = f (l₁.getD n d₁) (l₂.getD n d₂) := by
  rw [List.getD_eq_getElem?_getD, List.getElem?_zipWith,
    List.getElem?_eq_getElem h₁, List.getElem?_eq_getElem h₂]
  simp [List.getD_eq_getElem?_getD, List.getElem?_eq_getElem h₁, List.getElem?_eq_getElem h₂]

theorem mapWithIdx_length {α β : Type*} (f : ℕ → α → β) (c : ℕ) (l : List α) :
    (mapWithIdx f c l).length = l.length := by
  induction l generalizing c with
  | nil => rfl
  | cons x xs ih => simp [mapWithIdx, ih]

theorem mapWithIdx_getD_of_lt {α β : Type*} (f : ℕ → α → β) (c n : ℕ) (l : List α)
    (d : α) (d' : β) (h : n < l.length) :
    (mapWithIdx f c l).getD n d' = f (c + n) (l.getD n d) := by
  induction l generalizing c n with
  | nil => simp at h
  | cons x xs ih =>
    cases n with
    | zero => simp [mapWithIdx]
    | succ m =>
      have hm : m < xs.length := by simpa using h
      have := ih (c + 1) m hm
      simpa [mapWithIdx, Nat.add_comm, Nat.add_assoc, Nat.add_left_comm] using this

theorem getD_tail {α : Type*} (l : List α) (n : ℕ) (d : α) :
    l.tail.getD n d = l.getD (n + 1) d := by
  cases l <;> simp [List.getD_eq_getElem?_getD]

/-! ## C1: the training mask -/

/-- C1: for every constructed dataset (binary observation and evaluation masks of
matching shape) the `training_mask` entry is the element-wise AND of the
observation entry with the complement of the evaluation entry, and when the
evaluation mask is unset (`none`) the training mask is exactly the observation
mask. -/
theorem training_mask_and_complement (m em : List (List ℕ)) (t c : ℕ)
    (ht : t < m.length) (ht2 : t < em.length)
    (hc : c < (m.getD t []).length) (hc2 : c < (em.getD t []).length)
    (hm : (m.getD t []).getD c 0 ≤ 1) (he : (em.getD t []).getD c 0 ≤ 1) :
    ((training_mask m (some em)).getD t []).getD c 0 =
      (if (m.getD t []).getD c 0 = 1 ∧ (em.getD t []).getD c 0 = 0 then 1 else 0) ∧
    training_mask m none = m := by
  refine ⟨?_, rfl⟩
  have hrow : (training_mask m (some em)).getD t [] =
      List.zipWith (fun a b => Nat.land a (1 - b)) (m.getD t []) (em.getD t []) :=
    getD_zipWith_of_lt _ m em t [] [] [] ht ht2
  rw [hrow, getD_zipWith_of_lt _ _ _ c 0 0 0 hc hc2]
  set a := (m.getD t []).getD c 0 with ha
  set b := (em.getD t []).getD c 0 with hb
  interval_cases a <;> interval_cases b <;> decide

/-- Witness for C1 at a concrete 1×1 dataset. -/
theorem training_mask_and_complement_witness :
    ((training_mask [[1]] (some [[0]])).getD 0 []).getD 0 0 =
      (if (([[1]] : List (List ℕ)).getD 0 []).getD 0 0 = 1 ∧
          (([[0]] : List (List ℕ)).getD 0 []).getD 0 0 = 0 then 1 else 0) ∧
    training_mask [[1]] none = [[1]] :=
  training_mask_and_complement [[1]] [[0]] 0 0 (by decide) (by decide) (by decide)
    (by decide) (by decide) (by decide)

/-! ## C2: the anchor-sensor pattern -/

/-- C2: absent a `masked_sensors` override, the final evaluation mask is the
fixed anchor pattern, for every frame: entry `(t, c)` is 0 when `c` is a
multiple of 5 and 1 otherwise. -/
theorem eval_mask_anchor_pattern (df : List (List (Option ℚ))) (t c : ℕ)
    (ht : t < df.length) (hc : c < (df.getD t []).length) :
    ((loadEvalMask df none).getD t []).getD c 0 = if c % 5 = 0 then 0 else 1 := by
  simp only [loadEvalMask, evalMaskSR]
  have h1 : t < (df.map (fun row => row.map (fun _ => (0 : ℕ)))).length := by
    simpa using ht
  have h2 : t < ((df.map (fun row => row.map (fun _ => (0 : ℕ)))).map
      (fun row => mapWithIdx (fun c x => if c % 5 = 0 then 1 else x) 0 row)).length := by
    simpa using ht
  rw [getD_map_of_lt _ _ t [] [] h2, getD_map_of_lt _ _ t [] [] h1,
    getD_map_of_lt _ _ t [] [] ht]
  have hc1 : c < (mapWithIdx (fun c x => if c % 5 = 0 then 1 else x) 0
      ((df.getD t []).map (fun _ => (0 : ℕ)))).length := by
    rw [mapWithIdx_length]; simpa using hc
  have hc2 : c < ((df.getD t []).map (fun _ => (0 : ℕ))).length := by simpa using hc
  rw [getD_map_of_lt _ _ c 0 0 hc1, mapWithIdx_getD_of_lt _ 0 c _ 0 0 hc2,
    getD_map_of_lt _ _ c (none : Option ℚ) 0 hc]
  by_cases h5 : c % 5 = 0 <;> simp [h5]

/-- Witness for C2 at a concrete one-row, two-column frame. -/
theorem eval_mask_anchor_pattern_witness :
    ((loadEvalMask [[some 1, none]] none).getD 0 []).getD 1 0 =
      if 1 % 5 = 0 then 0 else 1 :=
  eval_mask_anchor_pattern [[some 1, none]] 0 1 (by decide) (by decide)

/-! ## C3: masked sensors -/

/-- C3: with a `masked_sensors` override, for every masked sensor `s` that is a
valid column index, the evaluation-mask column `s` equals the observation-mask
column `s` element-wise, so in particular it is bounded by it. -/
theorem masked_sensor_eval_eq_obs (df : List (List (Option ℚ))) (ms : List ℕ)
    (s t : ℕ) (hms : s ∈ ms) (ht : t < df.length) (hs : s < (df.getD t []).length) :
    ((loadEvalMask df (some ms)).getD t []).getD s 0 =
      ((obsMask df).getD t []).getD s 0 ∧
    ((loadEvalMask df (some ms)).getD t []).getD s 0 ≤
      ((obsMask df).getD t []).getD s 0 := by
  have hobs : (obsMask df).getD t [] =
      (df.getD t []).map (fun v => if v.isSome then 1 else 0) :=
    getD_map_of_lt _ df t [] [] ht
  have hobs2 : ((obsMask df).getD t []).getD s 0 =
      if ((df.getD t []).getD s none).isSome then 1 else 0 := by
    rw [hobs, getD_map_of_lt _ _ s none 0 hs]
  have hem : t < (evalMaskSR df).length := by simp [evalMaskSR]; simpa using ht
  have hmk : t < (obsMask df).length := by simp [obsMask]; simpa using ht
  have hrow : (loadEvalMask df (some ms)).getD t [] =
      mapWithIdx
        (fun c x => if c ∈ ms then (if ((obsMask df).getD t []).getD c 0 ≠ 0 then 1 else 0)
          else x) 0 ((evalMaskSR df).getD t []) := by
    simp only [loadEvalMask, applyMaskedSensors]
    exact getD_zipWith_of_lt _ _ _ t [] [] [] hem hmk
  have hsr : s < ((evalMaskSR df).getD t []).length := by
    simp only [evalMaskSR]
    have h1 : t < (df.map (fun row => row.map (fun _ => (0 : ℕ)))).length := by simpa using ht
    have h2 : t < ((df.map (fun row => row.map (fun _ => (0 : ℕ)))).map
        (fun row => mapWithIdx (fun c x => if c % 5 = 0 then 1 else x) 0 row)).length := by
      simpa using ht
    rw [getD_map_of_lt _ _ t [] [] h2, getD_map_of_lt _ _ t [] [] h1,
      getD_map_of_lt _ _ t [] [] ht]
    simp only [List.length_map, mapWithIdx_length]
    simpa using hs
  have hval : ((loadEvalMask df (some ms)).getD t []).getD s 0 =
      ((obsMask df).getD t []).getD s 0 := by
    rw [hrow, mapWithIdx_getD_of_lt _ 0 s _ 0 0 hsr]
    simp only [Nat.zero_add]
    rw [if_pos hms, hobs2]
    cases hx : (df.getD t []).getD s none <;> simp [hx]
  exact ⟨hval, le_of_eq hval⟩

/-- Witness for C3 at a concrete one-row frame with masked sensor 1. -/
theorem masked_sensor_eval_eq_obs_witness :
    ((loadEvalMask [[some 1, none]] (some [1])).getD 0 []).getD 1 0 =
      ((obsMask [[some 1, none]]).getD 0 []).getD 1 0 ∧
    ((loadEvalMask [[some 1, none]] (some [1])).getD 0 []).getD 1 0 ≤
      ((obsMask [[some 1, none]]).getD 0 []).getD 1 0 :=
  masked_sensor_eval_eq_obs [[some 1, none]] [1] 1 0 (by decide) (by decide) (by decide)

/-! ## C5: month-boundary detection -/

theorem np_diff_length (l : List ℕ) : (np_diff l).length = l.length - 1 := by
  simp only [np_diff, List.length_zipWith, List.length_tail]
  omega

theorem np_diff_getD (l : List ℕ) (i : ℕ) (hi : i < l.length - 1) :
    (np_diff l).getD i 0 = (l.getD (i + 1) 0 : ℤ) - (l.getD i 0 : ℤ) := by
  have h1 : i < l.length := by omega
  have h2 : i + 1 < l.length := by omega
  simp only [np_diff, List.getD_eq_getElem?_getD, List.getElem?_zipWith, List.getElem?_tail,
    List.getElem?_eq_getElem h1, List.getElem?_eq_getElem h2]
  rfl

theorem filter_map_eq_filterMap {α β : Type*} (p : α → Bool) (f : α → β) (l : List α) :
    (l.filter p).map f = l.filterMap (fun a => if p a then some (f a) else none) := by
  induction l with
  | nil => rfl
  | cons x xs ih =>
    by_cases h : p x = true <;>
      simp [List.filter_cons, List.filterMap_cons, h, ih]

/-- C5 counterexample: on the test-index list `[0, 1, 2, 5, 10]` the successive
differences are `[1, 1, 3, 5]`; the code marks the two positions whose gap
strictly exceeds the minimum gap (yielding boundaries `5` and `10`, prepended
with `0`), whereas the claimed rule — mark exactly the positions of the largest
gaps — would mark only `10`. -/
theorem end_month_idxs_not_largest_gaps :
    end_month_idxs [0, 1, 2, 5, 10] ≠ boundaries_largest [0, 1, 2, 5, 10] := by
  decide

/-- C5 (amended): the code marks as boundaries exactly the successors of the
positions whose successive difference strictly exceeds the minimum successive
difference (not the positions of the largest gaps), and prepends the first test
index whenever fewer boundaries than test months are found. -/
theorem end_month_idxs_gt_min_rule (test_idxs : List ℕ) :
    end_month_idxs test_idxs = boundaries_gt_min test_idxs := by
  simp only [end_month_idxs, boundaries_gt_min]
  have key : ((List.range (np_diff test_idxs).length).filter
        (fun i => np_min (np_diff test_idxs) < (np_diff test_idxs).getD i 0)).map
        (fun i => test_idxs.tail.getD i 0) =
      (List.range (test_idxs.length - 1)).filterMap
        (fun i => if np_min (np_diff test_idxs) <
            (test_idxs.getD (i + 1) 0 : ℤ) - (test_idxs.getD i 0 : ℤ) then
          some (test_idxs.getD (i + 1) 0)
        else none) := by
    rw [np_diff_length, filter_map_eq_filterMap]
    apply List.filterMap_congr
    intro i hi
    have hi' : i < test_idxs.length - 1 := List.mem_range.mp hi
    rw [np_diff_getD _ _ hi', getD_tail]
    simp only [decide_eq_true_eq]
  rw [key]
  rfl

/-! ## C4: out-of-sample split disjointness -/

/-- C4 (amended): in out-of-sample mode, for any overlap detector that marks at
least exact index coincidences, the training set shares no index with the
validation set and no index with the test set; the validation and test sets,
however, may intersect (see the counterexample). -/
theorem splitter_train_disjoint_val_test (months_of : List ℕ) (val_len : ℚ)
    (window : ℕ) (ovl : ℕ → List ℕ → Bool) (r : List ℕ × List ℕ × List ℕ)
    (hovl : ∀ i l, i ∈ l → ovl i l = true)
    (h : splitter months_of val_len false window ovl = some r) :
    (∀ i ∈ r.1, i ∉ r.2.1) ∧ (∀ i ∈ r.1, i ∉ r.2.2) := by
  simp only [splitter, Bool.false_eq_true, if_false] at h
  by_cases hlen : (disjoint_months months_of test_months).2.length < 2
  · rw [if_pos hlen] at h
    exact absurd h (by simp)
  · rw [if_neg hlen] at h
    obtain rfl := Option.some.inj h
    constructor
    · intro i hi hvi
      rw [List.mem_filter] at hi
      have h1 : ovl i (month_val_windows (end_month_idxs (disjoint_months months_of test_months).2)
          (val_length val_len (disjoint_months months_of test_months).1.length) window
          months_of.length) = false := by
        simpa using hi.2
      rw [hovl i _ hvi] at h1
      simp at h1
    · intro i hi hti
      rw [List.mem_filter] at hi
      have h1 := hi.1
      simp only [disjoint_months, List.mem_filter] at h1 hti
      have h2 := h1.2
      rw [hti.2] at h2
      simp at h2

/-! ## C7: in-sample mode -/

/-- C7: in in-sample mode the training set is the full index range `[0, N)`
(test-month samples are not excluded) and the validation set consists of the
samples whose target-window month is `(m - 1) % 12` for a test month `m` in
`{3, 6, 9, 12}`, i.e. lies in `{2, 5, 8, 11}`. -/
theorem splitter_in_sample_full_train (months_of : List ℕ) (val_len : ℚ)
    (window : ℕ) (ovl : ℕ → List ℕ → Bool) :
    splitter months_of val_len true window ovl =
      some (List.range months_of.length,
        (List.range months_of.length).filter
          (fun i => [2, 5, 8, 11].contains (months_of.getD i 0)),
        (List.range months_of.length).filter
          (fun i => [3, 6, 9, 12].contains (months_of.getD i 0))) := rfl

/-! ## C8: similarity post-processing -/

/-- C8: with `include_self = False` the adjacency matrix has a zero diagonal
(whatever `force_symmetric` is), and with `force_symmetric = True` the matrix —
the element-wise maximum of the thresholded matrix and its transpose — equals
its own transpose (whatever `include_self` is). -/
theorem get_similarity_zero_diag_symmetric (adj : ℕ → ℕ → ℚ) (b : Bool) (i j : ℕ) :
    get_similarity adj false b i i = 0 ∧
    get_similarity adj b true i j = get_similarity adj b true j i := by
  constructor
  · simp only [get_similarity]
    cases b <;> simp
  · simp only [get_similarity]
    cases b <;> simp [max_comm]

/-! ## C6: validation-window construction -/

theorem floor_intCast_div_four (m : ℤ) (hm : 0 ≤ m) :
    ⌊((m : ℚ) / 4)⌋ = ((m.toNat / 4 : ℕ) : ℤ) := by
  rw [← Int.toNat_of_nonneg hm]
  rw [show ((4 : ℚ)) = ((4 : ℕ) : ℚ) by norm_num]
  rw [show (((m.toNat : ℤ) : ℚ)) = ((m.toNat : ℕ) : ℚ) by push_cast; ring]
  exact_mod_cast Rat.floor_natCast_div_natCast m.toNat 4

theorem val_length_frac (val_len : ℚ) (n : ℕ) (h0 : 0 ≤ val_len) (h1 : val_len < 1) :
    val_length val_len n = ((⌊val_len * (n : ℚ)⌋.toNat / 4 : ℕ) : ℤ) := by
  have hx : 0 ≤ val_len * (n : ℚ) := mul_nonneg h0 (by positivity)
  have hfl : 0 ≤ ⌊val_len * (n : ℚ)⌋ := Int.floor_nonneg.mpr hx
  simp only [val_length, pyFloorDiv, pyInt]
  rw [if_pos h1, if_neg (not_lt.mpr hx)]
  rw [show (((test_months.length : ℕ) : ℚ)) = 4 by norm_num [test_months]]
  exact floor_intCast_div_four _ hfl

theorem month_val_windows_natCast (emi : List ℕ) (Ls w N : ℕ) :
    month_val_windows emi (Ls : ℤ) w N =
      (emi.map (fun b => (List.range Ls).map
        (fun k => ((((b : ℤ) - (Ls : ℤ) + (k : ℤ) - (w : ℤ)) % (N : ℤ))).toNat))).flatten := by
  simp only [month_val_windows, Int.toNat_natCast]
  rw [List.map_flatten, List.map_map]
  congr 1
  apply List.map_congr_left
  intro b _
  rw [Function.comp_apply, List.map_map]
  rfl

/-- C6: for a fractional `val_len` in `[0, 1)`, the validation set returned in
out-of-sample mode is exactly the union over the detected boundaries `b` of the
`L` indices immediately preceding `b`, shifted left by `window` and wrapped
modulo `N`, where `L` is `val_len` times the non-test count, floored, then
integer-divided by the number of test months. -/
theorem splitter_val_windows (months_of : List ℕ) (val_len : ℚ) (window : ℕ)
    (ovl : ℕ → List ℕ → Bool) (r : List ℕ × List ℕ × List ℕ)
    (h0 : 0 ≤ val_len) (h1 : val_len < 1)
    (h : splitter months_of val_len false window ovl = some r) :
    r.2.1 = val_windows_spec months_of val_len window := by
  simp only [splitter, Bool.false_eq_true, if_false] at h
  by_cases hlen : (disjoint_months months_of test_months).2.length < 2
  · rw [if_pos hlen] at h
    exact absurd h (by simp)
  · rw [if_neg hlen] at h
    obtain rfl := Option.some.inj h
    show month_val_windows _ _ _ _ = _
    rw [val_length_frac _ _ h0 h1, month_val_windows_natCast]
    rfl

/-! ## C9 and C10: degenerate `val_len` values -/

theorem pyInt_nonpos (q : ℚ) (hq : q ≤ 0) : pyInt q ≤ 0 := by
  simp only [pyInt]
  split
  · exact Int.ceil_le.mpr (by exact_mod_cast hq)
  · exact Int.floor_nonpos hq

theorem month_val_windows_nil (emi : List ℕ) (L : ℤ) (w N : ℕ) (hL : L ≤ 0) :
    month_val_windows emi L w N = [] := by
  simp [month_val_windows, Int.toNat_of_nonpos hL, List.flatten_eq_nil_iff]

theorem val_length_nonpos (val_len : ℚ) (n : ℕ) (hv : val_len ≤ 0) :
    val_length val_len n ≤ 0 := by
  simp only [val_length, pyFloorDiv]
  rw [if_pos (lt_of_le_of_lt hv one_pos)]
  have hx : val_len * (n : ℚ) ≤ 0 :=
    mul_nonpos_iff.mpr (Or.inr ⟨hv, by positivity⟩)
  have h3 : ((pyInt (val_len * (n : ℚ)) : ℤ) : ℚ) ≤ 0 := by
    exact_mod_cast pyInt_nonpos _ hx
  exact Int.floor_nonpos
    (div_nonpos_of_nonpos_of_nonneg h3 (by positivity))

/-- C9 (amended): calling `splitter` with `val_len ≤ 0` does not fail fast: it
returns normally, with an empty validation index set (the per-block length is
nonpositive, so every `arange` window is empty). -/
theorem splitter_nonpos_val_len (months_of : List ℕ) (val_len : ℚ) (window : ℕ)
    (ovl : ℕ → List ℕ → Bool) (r : List ℕ × List ℕ × List ℕ)
    (hv : val_len ≤ 0)
    (h : splitter months_of val_len false window ovl = some r) :
    r.2.1 = [] := by
  simp only [splitter, Bool.false_eq_true, if_false] at h
  by_cases hlen : (disjoint_months months_of test_months).2.length < 2
  · rw [if_pos hlen] at h
    exact absurd h (by simp)
  · rw [if_neg hlen] at h
    obtain rfl := Option.some.inj h
    exact month_val_windows_nil _ _ _ _ (val_length_nonpos _ _ hv)

/-- C10: with the default `val_len = 1.0`, out-of-sample mode yields an empty
validation set: `1.0 < 1` is false, so `1` is taken as an absolute count and
integer division by the four test months gives a per-block window length of 0. -/
theorem splitter_default_val_len (months_of : List ℕ) (window : ℕ)
    (ovl : ℕ → List ℕ → Bool) (r : List ℕ × List ℕ × List ℕ)
    (h : splitter months_of 1 false window ovl = some r) :
    r.2.1 = [] := by
  simp only [splitter, Bool.false_eq_true, if_false] at h
  by_cases hlen : (disjoint_months months_of test_months).2.length < 2
  · rw [if_pos hlen] at h
    exact absurd h (by simp)
  · rw [if_neg hlen] at h
    obtain rfl := Option.some.inj h
    apply month_val_windows_nil
    simp only [val_length, pyFloorDiv]
    rw [if_neg (lt_irrefl (1 : ℚ))]
    rw [show (((test_months.length : ℕ) : ℚ)) = 4 by norm_num [test_months]]
    have : ⌊(1 : ℚ) / 4⌋ = 0 := by norm_num
    omega

/-! ## Concrete splitter evaluations -/

theorem splitter_eval_window7 :
    splitter [1, 3, 1, 6, 1, 9, 1, 12] 4 false 7 overlapping_index =
      some ([0, 2, 4, 6], [1], [1, 3, 5, 7]) := by
  have h4 : (disjoint_months [1, 3, 1, 6, 1, 9, 1, 12] test_months).1.length = 4 := by decide
  have hL : val_length 4 (disjoint_months [1, 3, 1, 6, 1, 9, 1, 12] test_months).1.length = 1 := by
    rw [h4]
    norm_num [val_length, pyFloorDiv, pyInt, test_months]
  simp only [splitter]
  rw [hL]
  decide

theorem splitter_eval_vlzero :
    splitter [1, 3, 1, 6, 1, 9, 1, 12] 0 false 0 overlapping_index =
      some ([0, 2, 4, 6], [], [1, 3, 5, 7]) := by
  have h4 : (disjoint_months [1, 3, 1, 6, 1, 9, 1, 12] test_months).1.length = 4 := by decide
  have hL : val_length 0 (disjoint_months [1, 3, 1, 6, 1, 9, 1, 12] test_months).1.length = 0 := by
    rw [h4]
    norm_num [val_length, pyFloorDiv, pyInt, test_months]
  simp only [splitter]
  rw [hL]
  decide

theorem splitter_eval_half :
    splitter [1, 1, 1, 1, 1, 1, 1, 1, 3, 6, 9, 12] (1 / 2) false 0 overlapping_index =
      some ([0, 1, 2, 3, 4, 5, 6], [7], [8, 9, 10, 11]) := by
  have h8 : (disjoint_months [1, 1, 1, 1, 1, 1, 1, 1, 3, 6, 9, 12] test_months).1.length = 8 := by
    decide
  have hL : val_length (1 / 2)
      (disjoint_months [1, 1, 1, 1, 1, 1, 1, 1, 3, 6, 9, 12] test_months).1.length = 1 := by
    rw [h8]
    norm_num [val_length, pyFloorDiv, pyInt, test_months]
  simp only [splitter]
  rw [hL]
  decide

theorem splitter_eval_m12_one :
    splitter [1, 1, 1, 1, 1, 1, 1, 1, 3, 6, 9, 12] 1 false 0 overlapping_index =
      some ([0, 1, 2, 3, 4, 5, 6, 7], [], [8, 9, 10, 11]) := by
  have h8 : (disjoint_months [1, 1, 1, 1, 1, 1, 1, 1, 3, 6, 9, 12] test_months).1.length = 8 := by
    decide
  have hL : val_length 1
      (disjoint_months [1, 1, 1, 1, 1, 1, 1, 1, 3, 6, 9, 12] test_months).1.length = 0 := by
    rw [h8]
    norm_num [val_length, pyFloorDiv, pyInt, test_months]
  simp only [splitter]
  rw [hL]
  decide

/-! ## Witnesses and counterexamples for the splitter claims -/

/-- C4 counterexample: a dataset with four single-sample test blocks,
`val_len = 4` (the full non-test count, so in `(0, non-test count]`) and the
non-negative `window = 7`: `splitter` returns validation set `[1]` and test set
`[1, 3, 5, 7]`, which share the index 1, so the three sets are not pairwise
disjoint. -/
theorem splitter_val_test_overlap :
    splitter [1, 3, 1, 6, 1, 9, 1, 12] 4 false 7 overlapping_index =
      some ([0, 2, 4, 6], [1], [1, 3, 5, 7]) ∧
    (1 : ℕ) ∈ ([1] : List ℕ) ∧ (1 : ℕ) ∈ ([1, 3, 5, 7] : List ℕ) :=
  ⟨splitter_eval_window7, by decide, by decide⟩

/-- Witness for the amended C4 at the counterexample instance. -/
theorem splitter_train_disjoint_val_test_witness :
    (∀ i ∈ ([0, 2, 4, 6] : List ℕ), i ∉ ([1] : List ℕ)) ∧
    (∀ i ∈ ([0, 2, 4, 6] : List ℕ), i ∉ ([1, 3, 5, 7] : List ℕ)) :=
  splitter_train_disjoint_val_test [1, 3, 1, 6, 1, 9, 1, 12] 4 7 overlapping_index
    ([0, 2, 4, 6], [1], [1, 3, 5, 7]) (fun _ _ hm => decide_eq_true hm)
    splitter_eval_window7

/-- Witness for C6 at a concrete dataset with `val_len = 1/2`. -/
theorem splitter_val_windows_witness :
    ([7] : List ℕ) =
      val_windows_spec [1, 1, 1, 1, 1, 1, 1, 1, 3, 6, 9, 12] (1 / 2) 0 :=
  splitter_val_windows [1, 1, 1, 1, 1, 1, 1, 1, 3, 6, 9, 12] (1 / 2) 0
    overlapping_index ([0, 1, 2, 3, 4, 5, 6], [7], [8, 9, 10, 11])
    (by norm_num) (by norm_num) splitter_eval_half

/-- C9 counterexample: at `val_len = 0` the splitter does not fail fast; it
returns normally with an empty validation index set. -/
theorem splitter_vlzero_returns_normally :
    splitter [1, 3, 1, 6, 1, 9, 1, 12] 0 false 0 overlapping_index =
      some ([0, 2, 4, 6], [], [1, 3, 5, 7]) :=
  splitter_eval_vlzero

/-- Witness for the amended C9 at `val_len = 0`. -/
theorem splitter_nonpos_val_len_witness :
    (([0, 2, 4, 6], [], [1, 3, 5, 7]) : List ℕ × List ℕ × List ℕ).2.1 = [] :=
  splitter_nonpos_val_len [1, 3, 1, 6, 1, 9, 1, 12] 0 0 overlapping_index
    ([0, 2, 4, 6], [], [1, 3, 5, 7]) (le_refl 0) splitter_eval_vlzero

/-- Witness for C10 at a concrete dataset with the default `val_len = 1`. -/
theorem splitter_default_val_len_witness :
    (([0, 1, 2, 3, 4, 5, 6, 7], [], [8, 9, 10, 11]) : List ℕ × List ℕ × List ℕ).2.1 = [] :=
  splitter_default_val_len [1, 1, 1, 1, 1, 1, 1, 1, 3, 6, 9, 12] 0 overlapping_index
    ([0, 1, 2, 3, 4, 5, 6, 7], [], [8, 9, 10, 11]) splitter_eval_m12_one

end AirQuality
